import Mathlib

set_option autoImplicit false

/-!
Verification of the opensheet caching proxy (src/index.js).

The file contains two variants of the same Express application, separated by
a document separator: a richer variant (lines 1-128, with a configurable CORS
whitelist, a `DELETE /cache/:id` handler, and a 300000 ms cache TTL) and a
simpler variant (lines 129-223, with a 30000 ms TTL and no manual eviction
handler).  We embed the cache store, the `GET /:id/:sheet` read flow, and the
`DELETE /cache/:id` eviction flow of the richer variant; the simpler variant
differs only in its TTL constant, which we embed separately.

Modelling conventions:
- JS `Map` becomes an association list `List (String × String)` with
  `Map.set` overwrite semantics.
- A JS object built by indexed assignment (`rowData[headers[index]] = item`)
  becomes an insertion-ordered association list with assignment semantics
  (`objAssign`): assigning an existing key replaces its value in place,
  assigning a fresh key appends.
- Upstream Google Sheets calls (`spreadsheets.get`, `spreadsheets.values.get`)
  are oracles passed in as an `Upstream` structure; each sheet descriptor
  returned by the describe call is represented by its `properties.title`
  string, the only field the code ever reads.  Flows report the list of
  upstream calls they issued.
- `JSON.stringify` on the row table becomes `jsonStringifyRows`, a concrete
  serializer (we escape `"` and `\`; JS additionally escapes control
  characters, which no claim exercises).  The cache stores the serialized
  string, exactly as `Cache.set(cacheKey, JSON.stringify(rows))` does.  The
  cache-hit path `res.json(JSON.parse(result))` puts on the wire
  `stringify(parse(result))`, which for a string in stringify's image is the
  string itself; we therefore model the hit response body as the stored
  string.
- `setTimeout(() => Cache.delete(cacheKey), TTL)` becomes an armed timer
  `(cacheKey, TTL)` in the flow's outcome together with `fireTimer`, the
  embedding of the timeout callback.
-/

/-- Replacement of one character under `sheet.replace(/\+/g, " ")`. -/
def normalizeChar (c : Char) : Char :=
  if c = '+' then ' ' else c

/-- `sheet.replace(/\+/g, " ")` (src/index.js line 45): every literal `+`
character of the sub-resource identifier becomes a space. -/
def normalizeSheet (s : String) : String :=
  String.mk (List.map normalizeChar s.data)

/-- The composite cache key `` `${id}--${sheet}` `` (line 47), built from the
already-normalized sheet identifier. -/
def mkCacheKey (id sheetParam : String) : String :=
  id ++ "--" ++ normalizeSheet sheetParam

/-- The cache store: a JS `Map` from key to serialized value, as an
association list in insertion order. -/
abbrev CacheT : Type := List (String × String)

/-- `Cache.get(key)`: the stored value, if any. -/
def cacheGet (c : CacheT) (k : String) : Option String :=
  (List.find? (fun p => p.1 = k) c).map (fun p => p.2)

/-- `Cache.has(key)`. -/
def cacheHas (c : CacheT) (k : String) : Bool :=
  (cacheGet c k).isSome

/-- `Cache.set(key, value)`: overwrite an existing entry in place, else
append a new one. -/
def cacheSet (c : CacheT) (k v : String) : CacheT :=
  if cacheHas c k then
    List.map (fun p => if p.1 = k then (k, v) else p) c
  else
    c ++ [(k, v)]

/-- `Cache.delete(key)`. -/
def cacheDelete (c : CacheT) (k : String) : CacheT :=
  List.filter (fun p => ¬ p.1 = k) c

/-- The richer variant's TTL: `setTimeout(..., 300000)` (line 104). -/
def cacheTTLMillis : Nat := 300000

/-- The simpler variant's TTL: `setTimeout(..., 30000)` (line 212). -/
def cacheTTLMillisSimple : Nat := 30000

/-- An armed expiration: the key to delete and the delay in milliseconds. -/
abbrev Timer : Type := String × Nat

/-- The body of the `setTimeout` callback armed at lines 102-104:
`Cache.delete(cacheKey)`. -/
def fireTimer (t : Timer) (c : CacheT) : CacheT :=
  cacheDelete c t.1

/-- `headers[index]` used as a property key (line 96).  When `index` is
beyond the header row, JS reads `undefined` and coerces it to the property
key `"undefined"`. -/
def headerKey (headers : List String) (i : Nat) : String :=
  match headers[i]? with
  | some h => h
  | none => "undefined"

/-- A row object: a JS object as an insertion-ordered association list. -/
abbrev Obj : Type := List (String × String)

/-- JS property assignment `o[k] = v`: replace in place when `k` is already a
key of `o`, append otherwise. -/
def objAssign (o : Obj) (k v : String) : Obj :=
  if List.any o (fun p => p.1 = k) then
    List.map (fun p => if p.1 = k then (k, v) else p) o
  else
    o ++ [(k, v)]

/-- `row.forEach((item, index) => { rowData[headers[index]] = item })`
(lines 95-97), with the running index made explicit. -/
def rowToObjAux (headers : List String) : List String → Nat → Obj → Obj
  | [], _, acc => acc
  | v :: rest, i, acc => rowToObjAux headers rest (i + 1) (objAssign acc (headerKey headers i) v)

/-- One raw row transformed into a row object (lines 94-98). -/
def rowToObj (headers : List String) (row : List String) : Obj :=
  rowToObjAux headers row 0 []

/-- The row-table transform (lines 88-99): `rawRows.shift()` consumes the
first raw row as headers; each remaining raw row becomes one row object.
On an empty matrix `shift()` returns `undefined` and the `forEach` loop
body never runs, so the result is `[]`. -/
def transformRows (rawRows : List (List String)) : List Obj :=
  match rawRows with
  | [] => []
  | headers :: rest => List.map (rowToObj headers) rest

/-- Escape one character for a JSON string literal (JS also escapes control
characters, which no input here contains). -/
def jsonEscapeChar (c : Char) : String :=
  if c = '"' then "\\\"" else if c = '\\' then "\\\\" else String.singleton c

/-- A JSON string literal. -/
def jsonStr (s : String) : String :=
  "\"" ++ String.join (List.map jsonEscapeChar s.data) ++ "\""

/-- One `"key":"value"` member. -/
def jsonPair (p : String × String) : String :=
  jsonStr p.1 ++ ":" ++ jsonStr p.2

/-- A row object serialized as a JSON object. -/
def jsonObjStr (o : Obj) : String :=
  "\x7b" ++ String.intercalate "," (List.map jsonPair o) ++ "\x7d"

/-- `JSON.stringify(rows)` (line 101): the row table as a JSON array. -/
def jsonStringifyRows (rows : List Obj) : String :=
  "[" ++ String.intercalate "," (List.map jsonObjStr rows) ++ "]"

/-- The test `!isNaN(sheet)` (line 54) on its claim-relevant domain: the
sheet identifier is a nonempty decimal numeral.  (JS's `isNaN` also accepts
further numeric spellings — fractions, exponents, padded whitespace — none
of which can denote a sheet ordinal and none of which the claims exercise;
the route parameter is never empty.) -/
def isNumericStr (s : String) : Bool :=
  s.length > 0 && List.all s.data Char.isDigit

/-- The value of one decimal digit character. -/
def digitVal (c : Char) : Nat :=
  c.toNat - Char.toNat '0'

/-- `parseInt(sheet)` (lines 65, 69), on the decimal numerals admitted by
`isNumericStr`, where it reads the digits left to right. -/
def parseIntJS (s : String) : Nat :=
  List.foldl (fun acc c => acc * 10 + digitVal c) 0 s.data

/-- The upstream Google Sheets service, as oracles: `describe` embeds
`sheets.spreadsheets.get` (returning the titles of `data.sheets`, the only
field read) and `fetchValues` embeds `sheets.spreadsheets.values.get`
(returning `result.data.values`, which may be absent).  `Except.error`
carries `error.response.data.error.message`. -/
structure Upstream where
  describe : String → Except String (List String)
  fetchValues : String → String → Except String (Option (List (List String)))

/-- One upstream call issued by a flow. -/
inductive UpCall where
  | describe (id : String)
  | fetchValues (id range : String)
deriving DecidableEq, Repr

/-- The response sent by the read flow.  The three error constructors tag
the three distinct error sites of the handler; each is serialized by the
code as `{ error: msg }`. -/
inductive Response where
  | rows (body : String)
  | validationError (msg : String)
  | notFoundError (msg : String)
  | upstreamError (msg : String)
deriving DecidableEq, Repr

/-- Everything observable about one run of the read handler: the response,
the cache afterwards, the upstream calls issued in order, and the expiration
timers armed. -/
structure ReadOutcome where
  response : Response
  cache : CacheT
  calls : List UpCall
  timers : List Timer
deriving DecidableEq

/-- Lines 78-109: `sheets.spreadsheets.values.get` with the resolved range,
then the row-table transform, cache population and timer arming. -/
def fetchPhase (up : Upstream) (cache : CacheT) (id cacheKey range : String)
    (calls : List UpCall) : ReadOutcome :=
  match up.fetchValues id range with
  | Except.error msg =>
      ⟨Response.upstreamError msg, cache, calls ++ [UpCall.fetchValues id range], []⟩
  | Except.ok values =>
      let rawRows := values.getD []
      let rows := transformRows rawRows
      let body := jsonStringifyRows rows
      ⟨Response.rows body, cacheSet cache cacheKey body,
        calls ++ [UpCall.fetchValues id range], [(cacheKey, cacheTTLMillis)]⟩

/-- The `GET /:id/:sheet` handler (lines 41-110): normalize the sheet
identifier, check the cache, resolve a numeric ordinal through the describe
call (which the code issues before the zero check), then fetch, transform,
populate and respond. -/
def readFlow (up : Upstream) (cache : CacheT) (id sheetParam : String) : ReadOutcome :=
  let sheet := normalizeSheet sheetParam
  let cacheKey := mkCacheKey id sheetParam
  match cacheGet cache cacheKey with
  | some result => ⟨Response.rows result, cache, [], []⟩
  | none =>
    if isNumericStr sheet then
      match up.describe id with
      | Except.error msg =>
          ⟨Response.upstreamError msg, cache, [UpCall.describe id], []⟩
      | Except.ok titles =>
          let n := parseIntJS sheet
          if n = 0 then
            ⟨Response.validationError "For this API, sheet numbers start at 1",
              cache, [UpCall.describe id], []⟩
          else
            match titles[n - 1]? with
            | none =>
                ⟨Response.notFoundError ("There is no sheet number " ++ sheet),
                  cache, [UpCall.describe id], []⟩
            | some title =>
                fetchPhase up cache id cacheKey title [UpCall.describe id]
    else
      fetchPhase up cache id cacheKey sheet []

/-- The result of the manual eviction handler. -/
inductive EvictStatus where
  | skipped
  | ok
deriving DecidableEq, Repr

/-- The `DELETE /cache/:id` handler (lines 112-122):
`const exist = Cache.get(cacheKey); if (!exist) ...`.  A missing key yields
`undefined` and an empty stored string is also falsy, so both report
`skipped`; otherwise the entry is deleted and `ok` is reported.  (The flows
of this service only ever store `JSON.stringify` images, which are never
empty.) -/
def deleteCacheFlow (cache : CacheT) (cacheKey : String) : EvictStatus × CacheT :=
  let exist := (cacheGet cache cacheKey).getD ""
  if exist = "" then
    (EvictStatus.skipped, cache)
  else
    (EvictStatus.ok, cacheDelete cache cacheKey)

/-- An append payload: either an ordered sequence (array) of cell values or
anything else. -/
inductive AppendPayload where
  | rowValues (vs : List String)
  | nonArray
deriving DecidableEq, Repr

/-- The upstream append oracle, embedding the external Tabular Append call:
spreadsheet id, range selector and one row of values, returning the
operation's result payload or an error message. -/
abbrev AppendUpstream : Type := String → String → List String → Except String String

/-- The response sent by the append flow. -/
inductive AppendResponse where
  | result (body : String)
  | validationError (msg : String)
  | upstreamError (msg : String)
deriving DecidableEq, Repr

/-- Everything observable about one run of the append flow. -/
structure AppendOutcome where
  response : AppendResponse
  cache : CacheT
  appendCalls : Nat
deriving DecidableEq

/-- Modelled from the spec: the Write-and-Invalidate flow of spec section
4.3 (`appendRow`).  No append handler exists in `src/index.js` (only the
read and manual-eviction handlers are present), so this definition follows
the spec's words: the payload must be an array of cell values, rejected
with a validation error before any upstream call otherwise; on upstream
append success the same cache key as the read path is computed and deleted
if present, and the upstream result payload is returned verbatim; on
upstream failure the error message is surfaced and the cache is left
untouched. -/
def appendFlow (upAppend : AppendUpstream) (cache : CacheT)
    (id sheetParam : String) (payload : AppendPayload) : AppendOutcome :=
  match payload with
  | AppendPayload.nonArray =>
      ⟨AppendResponse.validationError "Request body must be an array of values",
        cache, 0⟩
  | AppendPayload.rowValues vs =>
      let sheet := normalizeSheet sheetParam
      let cacheKey := mkCacheKey id sheetParam
      match upAppend id sheet vs with
      | Except.error msg => ⟨AppendResponse.upstreamError msg, cache, 1⟩
      | Except.ok body => ⟨AppendResponse.result body, cacheDelete cache cacheKey, 1⟩

/-- A concrete upstream used to instantiate universally quantified theorems:
two sheets named "Alpha" and "Beta", and a fixed raw matrix. -/
def demoUpstream : Upstream where
  describe := fun _ => Except.ok ["Alpha", "Beta"]
  fetchValues := fun _ _ => Except.ok (some [["a","b"],["1","2"],["3"]])

/-- A concrete upstream whose describe call fails. -/
def demoUpstreamDown : Upstream where
  describe := fun _ => Except.error "The caller does not have permission"
  fetchValues := fun _ _ => Except.error "The caller does not have permission"

/-- A concrete append upstream that always succeeds. -/
def demoAppendOk : AppendUpstream :=
  fun _ _ _ => Except.ok "appended"

/-- A concrete append upstream that always fails. -/
def demoAppendDown : AppendUpstream :=
  fun _ _ _ => Except.error "The caller does not have permission"

/-- A concrete upstream whose fetch succeeds with no values at all. -/
def demoUpstreamEmpty : Upstream where
  describe := fun _ => Except.ok []
  fetchValues := fun _ _ => Except.ok none

theorem cacheGet_cons_ne (p : String × String) (t : CacheT) (k : String) (hp : ¬ p.1 = k) :
    cacheGet (p :: t) k = cacheGet t k := by
  simp [cacheGet, List.find?_cons, hp]

theorem cacheGet_cons_eq (p : String × String) (t : CacheT) (k : String) (hp : p.1 = k) :
    cacheGet (p :: t) k = some p.2 := by
  simp [cacheGet, List.find?_cons, hp]

theorem cacheSet_cons_ne (p : String × String) (t : CacheT) (k v : String) (hp : ¬ p.1 = k) :
    cacheSet (p :: t) k v = p :: cacheSet t k v := by
  simp [cacheSet, cacheHas, cacheGet_cons_ne p t k hp, hp]
  split <;> simp [hp]

theorem cacheGet_cacheSet_self (c : CacheT) (k v : String) :
    cacheGet (cacheSet c k v) k = some v := by
  induction c with
  | nil => simp [cacheSet, cacheHas, cacheGet]
  | cons p t ih =>
      by_cases hp : p.1 = k
      · simp [cacheSet, cacheHas, cacheGet_cons_eq p t k hp, hp, cacheGet, List.find?_cons]
      · rw [cacheSet_cons_ne p t k v hp, cacheGet_cons_ne p (cacheSet t k v) k hp]
        exact ih

theorem cacheGet_cacheDelete_self (c : CacheT) (k : String) :
    cacheGet (cacheDelete c k) k = none := by
  unfold cacheGet cacheDelete
  rw [Option.map_eq_none']
  rw [List.find?_eq_none]
  intro p hp
  have := List.of_mem_filter hp
  simpa using this

theorem cacheHas_cacheDelete_self (c : CacheT) (k : String) :
    cacheHas (cacheDelete c k) k = false := by
  simp [cacheHas, cacheGet_cacheDelete_self]

theorem jsonStringifyRows_ne_empty (rows : List Obj) : jsonStringifyRows rows ≠ "" := by
  unfold jsonStringifyRows
  intro h
  have := congrArg String.length h
  simp [String.length_append] at this
  exact absurd this.1.1 (by decide)

theorem objAssign_not_mem (o : Obj) (k v : String) (h : ∀ p ∈ o, ¬ p.1 = k) :
    objAssign o k v = o ++ [(k, v)] := by
  unfold objAssign
  rw [if_neg]
  intro hc
  rw [List.any_eq_true] at hc
  obtain ⟨p, hp, hk⟩ := hc
  exact h p hp (by simpa using hk)

theorem objAssign_replace_last (o : Obj) (k v w : String) (h : ∀ p ∈ o, ¬ p.1 = k) :
    objAssign (o ++ [(k, w)]) k v = o ++ [(k, v)] := by
  have ho : List.map (fun p => if p.1 = k then (k, v) else p) o = List.map id o :=
    List.map_congr_left (fun p hp => by simp [h p hp])
  unfold objAssign
  rw [if_pos]
  · rw [List.map_append, ho, List.map_id]
    simp
  · simp [List.any_eq_true]

theorem headerKey_ge (headers : List String) (i : Nat) (h : headers.length ≤ i) :
    headerKey headers i = "undefined" := by
  simp [headerKey, List.getElem?_eq_none h]

theorem headerKey_lt (headers : List String) (i : Nat) (h : i < headers.length) :
    headerKey headers i = headers[i] := by
  simp [headerKey, List.getElem?_eq_getElem h]

theorem rowToObjAux_zip (headers : List String) (row : List String) :
    ∀ (i : Nat) (acc : Obj),
      i + row.length ≤ headers.length →
      (headers.drop i).Nodup →
      (∀ p ∈ acc, p.1 ∉ headers.drop i) →
      rowToObjAux headers row i acc = acc ++ (headers.drop i).zip row := by
  induction row with
  | nil => intro i acc _ _ _; simp [rowToObjAux]
  | cons v rest ih =>
      intro i acc hlen hnd hdisj
      have hi : i < headers.length := by
        have hc : (v :: rest).length = rest.length + 1 := rfl
        omega
      have hdropEq : headers.drop i = headers[i] :: headers.drop (i + 1) :=
        List.drop_eq_getElem_cons hi
      have hmemi : headers[i] ∈ headers.drop i := by rw [hdropEq]; exact List.mem_cons_self _ _
      have hstep : objAssign acc (headerKey headers i) v = acc ++ [(headers[i], v)] := by
        rw [headerKey_lt headers i hi]
        exact objAssign_not_mem acc _ v (fun p hp hk => hdisj p hp (hk ▸ hmemi))
      have hnd' : (headers.drop (i + 1)).Nodup := by
        rw [hdropEq] at hnd
        exact hnd.of_cons
      have hnotmem : headers[i] ∉ headers.drop (i + 1) := by
        rw [hdropEq] at hnd
        exact (List.nodup_cons.mp hnd).1
      have hdisj' : ∀ p ∈ acc ++ [(headers[i], v)], p.1 ∉ headers.drop (i + 1) := by
        intro p hp
        rcases List.mem_append.mp hp with hp | hp
        · intro hmem
          exact hdisj p hp (by rw [hdropEq]; exact List.mem_cons_of_mem _ hmem)
        · have : p = (headers[i], v) := by simpa using hp
          rw [this]
          exact hnotmem
      show rowToObjAux headers (v :: rest) i acc = _
      have hr : i + 1 + rest.length ≤ headers.length := by
        have hc : (v :: rest).length = rest.length + 1 := rfl
        omega
      rw [rowToObjAux, hstep, ih (i + 1) (acc ++ [(headers[i], v)]) hr hnd' hdisj']
      rw [hdropEq, List.zip_cons_cons, List.append_assoc]
      rfl

theorem rowToObj_zip (headers row : List String) (hlen : row.length ≤ headers.length)
    (hnd : headers.Nodup) : rowToObj headers row = headers.zip row := by
  have := rowToObjAux_zip headers row 0 [] (by simpa) (by simpa) (by simp)
  simpa [rowToObj] using this

theorem rowToObjAux_append (headers : List String) (xs ys : List String) :
    ∀ (i : Nat) (acc : Obj),
      rowToObjAux headers (xs ++ ys) i acc =
        rowToObjAux headers ys (i + xs.length) (rowToObjAux headers xs i acc) := by
  induction xs with
  | nil => intro i acc; simp [rowToObjAux]
  | cons v rest ih =>
      intro i acc
      show rowToObjAux headers (v :: (rest ++ ys)) i acc = _
      rw [rowToObjAux, ih (i + 1)]
      congr 1
      simp
      omega

theorem rowToObjAux_undef (headers : List String) (rest : List String) :
    ∀ (e w : String) (i : Nat) (acc : Obj),
      headers.length ≤ i →
      (∀ p ∈ acc, ¬ p.1 = "undefined") →
      rowToObjAux headers (e :: rest) i (acc ++ [("undefined", w)]) =
        acc ++ [("undefined", List.getLastD rest e)] := by
  induction rest with
  | nil =>
      intro e w i acc hi hacc
      rw [rowToObjAux, headerKey_ge headers i hi, objAssign_replace_last acc _ e w hacc]
      rfl
  | cons f rest ih =>
      intro e w i acc hi hacc
      rw [rowToObjAux, headerKey_ge headers i hi, objAssign_replace_last acc _ e w hacc]
      rw [ih f e (i + 1) acc (Nat.le_succ_of_le hi) hacc]
      rw [List.getLastD_cons]

theorem rowToObjAux_extras (headers : List String) (e : String) (rest : List String)
    (i : Nat) (acc : Obj) (hi : headers.length ≤ i)
    (hacc : ∀ p ∈ acc, ¬ p.1 = "undefined") :
    rowToObjAux headers (e :: rest) i acc =
      acc ++ [("undefined", List.getLastD rest e)] := by
  cases rest with
  | nil =>
      rw [rowToObjAux, headerKey_ge headers i hi, objAssign_not_mem acc _ e hacc]
      rfl
  | cons f rest =>
      rw [rowToObjAux, headerKey_ge headers i hi, objAssign_not_mem acc _ e hacc]
      rw [rowToObjAux_undef headers rest f e (i + 1) acc (Nat.le_succ_of_le hi) hacc]
      rw [List.getLastD_cons]

theorem zip_take_self (headers : List String) : ∀ (row : List String),
    headers.zip (row.take headers.length) = headers.zip row := by
  induction headers with
  | nil => intro row; simp
  | cons h t ih =>
      intro row
      cases row with
      | nil => simp
      | cons v rest => simp [List.zip_cons_cons, ih rest]

theorem fetchPhase_error (up : Upstream) (cache : CacheT)
    (id cacheKey range : String) (calls : List UpCall) (msg : String)
    (hf : up.fetchValues id range = Except.error msg) :
    fetchPhase up cache id cacheKey range calls =
      ⟨Response.upstreamError msg, cache, calls ++ [UpCall.fetchValues id range], []⟩ := by
  simp only [fetchPhase, hf]

theorem fetchPhase_ok (up : Upstream) (cache : CacheT)
    (id cacheKey range : String) (calls : List UpCall) (values : Option (List (List String)))
    (hf : up.fetchValues id range = Except.ok values) :
    fetchPhase up cache id cacheKey range calls =
      ⟨Response.rows (jsonStringifyRows (transformRows (values.getD []))),
        cacheSet cache cacheKey (jsonStringifyRows (transformRows (values.getD []))),
        calls ++ [UpCall.fetchValues id range], [(cacheKey, cacheTTLMillis)]⟩ := by
  simp only [fetchPhase, hf]

theorem readFlow_hit (up : Upstream) (cache : CacheT) (id s r : String)
    (hg : cacheGet cache (mkCacheKey id s) = some r) :
    readFlow up cache id s = ⟨Response.rows r, cache, [], []⟩ := by
  simp only [readFlow, hg]

theorem readFlow_miss_nonnumeric (up : Upstream) (cache : CacheT) (id s : String)
    (hg : cacheGet cache (mkCacheKey id s) = none)
    (hb : isNumericStr (normalizeSheet s) = false) :
    readFlow up cache id s = fetchPhase up cache id (mkCacheKey id s) (normalizeSheet s) [] := by
  simp only [readFlow, hg, hb]
  simp

theorem readFlow_describe_error (up : Upstream) (cache : CacheT) (id s msg : String)
    (hg : cacheGet cache (mkCacheKey id s) = none)
    (hb : isNumericStr (normalizeSheet s) = true)
    (hd : up.describe id = Except.error msg) :
    readFlow up cache id s =
      ⟨Response.upstreamError msg, cache, [UpCall.describe id], []⟩ := by
  simp only [readFlow, hg, hb, hd]
  simp

theorem readFlow_zero (up : Upstream) (cache : CacheT) (id s : String)
    (titles : List String)
    (hg : cacheGet cache (mkCacheKey id s) = none)
    (hb : isNumericStr (normalizeSheet s) = true)
    (hd : up.describe id = Except.ok titles)
    (hz : parseIntJS (normalizeSheet s) = 0) :
    readFlow up cache id s =
      ⟨Response.validationError "For this API, sheet numbers start at 1", cache,
        [UpCall.describe id], []⟩ := by
  simp only [readFlow, hg, hb, hd, hz]
  simp

theorem readFlow_notfound (up : Upstream) (cache : CacheT) (id s : String)
    (titles : List String)
    (hg : cacheGet cache (mkCacheKey id s) = none)
    (hb : isNumericStr (normalizeSheet s) = true)
    (hd : up.describe id = Except.ok titles)
    (hz : ¬ parseIntJS (normalizeSheet s) = 0)
    (ht : titles[parseIntJS (normalizeSheet s) - 1]? = none) :
    readFlow up cache id s =
      ⟨Response.notFoundError ("There is no sheet number " ++ normalizeSheet s), cache,
        [UpCall.describe id], []⟩ := by
  simp only [readFlow, hg, hb, hd, hz, ht, if_neg hz]
  simp

theorem readFlow_resolved (up : Upstream) (cache : CacheT) (id s : String)
    (titles : List String) (title : String)
    (hg : cacheGet cache (mkCacheKey id s) = none)
    (hb : isNumericStr (normalizeSheet s) = true)
    (hd : up.describe id = Except.ok titles)
    (hz : ¬ parseIntJS (normalizeSheet s) = 0)
    (ht : titles[parseIntJS (normalizeSheet s) - 1]? = some title) :
    readFlow up cache id s =
      fetchPhase up cache id (mkCacheKey id s) title [UpCall.describe id] := by
  simp only [readFlow, hg, hb, hd, hz, ht, if_neg hz]
  simp

theorem fetchPhase_rows_cached (up : Upstream) (cache : CacheT)
    (id cacheKey range : String) (calls : List UpCall) (body : String)
    (h : (fetchPhase up cache id cacheKey range calls).response = Response.rows body) :
    cacheGet (fetchPhase up cache id cacheKey range calls).cache cacheKey = some body := by
  cases hf : up.fetchValues id range with
  | error msg =>
      rw [fetchPhase_error up cache id cacheKey range calls msg hf] at h
      exact absurd h (by simp)
  | ok values =>
      rw [fetchPhase_ok up cache id cacheKey range calls values hf] at h ⊢
      have hb : jsonStringifyRows (transformRows (values.getD [])) = body := by
        simpa using h
      show cacheGet (cacheSet cache cacheKey (jsonStringifyRows (transformRows (values.getD []))))
        cacheKey = some body
      rw [hb]
      exact cacheGet_cacheSet_self cache cacheKey body

theorem readFlow_rows_cached (up : Upstream) (cache : CacheT) (id s body : String)
    (h : (readFlow up cache id s).response = Response.rows body) :
    cacheGet (readFlow up cache id s).cache (mkCacheKey id s) = some body := by
  cases hg : cacheGet cache (mkCacheKey id s) with
  | some r =>
      rw [readFlow_hit up cache id s r hg] at h ⊢
      have hrb : r = body := by simpa using h
      show cacheGet cache (mkCacheKey id s) = some body
      rw [hg, hrb]
  | none =>
      by_cases hb : isNumericStr (normalizeSheet s) = true
      · cases hd : up.describe id with
        | error msg =>
            rw [readFlow_describe_error up cache id s msg hg hb hd] at h
            exact absurd h (by simp)
        | ok titles =>
            by_cases hz : parseIntJS (normalizeSheet s) = 0
            · rw [readFlow_zero up cache id s titles hg hb hd hz] at h
              exact absurd h (by simp)
            · cases ht : titles[parseIntJS (normalizeSheet s) - 1]? with
              | none =>
                  rw [readFlow_notfound up cache id s titles hg hb hd hz ht] at h
                  exact absurd h (by simp)
              | some title =>
                  rw [readFlow_resolved up cache id s titles title hg hb hd hz ht] at h ⊢
                  exact fetchPhase_rows_cached up cache id _ title _ body h
      · rw [readFlow_miss_nonnumeric up cache id s hg (by simpa using hb)] at h ⊢
        exact fetchPhase_rows_cached up cache id _ _ _ body h

theorem fetchPhase_timer_mem (up : Upstream) (cache : CacheT)
    (id cacheKey range : String) (calls : List UpCall) :
    ∀ t ∈ (fetchPhase up cache id cacheKey range calls).timers,
      t = (cacheKey, cacheTTLMillis) := by
  intro t ht
  cases hf : up.fetchValues id range with
  | error msg =>
      rw [fetchPhase_error up cache id cacheKey range calls msg hf] at ht
      simp at ht
  | ok values =>
      rw [fetchPhase_ok up cache id cacheKey range calls values hf] at ht
      simpa using ht

theorem readFlow_timer_mem (up : Upstream) (cache : CacheT) (id s : String) :
    ∀ t ∈ (readFlow up cache id s).timers, t = (mkCacheKey id s, cacheTTLMillis) := by
  intro t ht
  cases hg : cacheGet cache (mkCacheKey id s) with
  | some r =>
      rw [readFlow_hit up cache id s r hg] at ht
      simp at ht
  | none =>
      by_cases hb : isNumericStr (normalizeSheet s) = true
      · cases hd : up.describe id with
        | error msg =>
            rw [readFlow_describe_error up cache id s msg hg hb hd] at ht
            simp at ht
        | ok titles =>
            by_cases hz : parseIntJS (normalizeSheet s) = 0
            · rw [readFlow_zero up cache id s titles hg hb hd hz] at ht
              simp at ht
            · cases hcase : titles[parseIntJS (normalizeSheet s) - 1]? with
              | none =>
                  rw [readFlow_notfound up cache id s titles hg hb hd hz hcase] at ht
                  simp at ht
              | some title =>
                  rw [readFlow_resolved up cache id s titles title hg hb hd hz hcase] at ht
                  exact fetchPhase_timer_mem up cache id _ title _ t ht
      · rw [readFlow_miss_nonnumeric up cache id s hg (by simpa using hb)] at ht
        exact fetchPhase_timer_mem up cache id _ _ _ t ht

theorem cacheSet_values_nonempty (cache : CacheT) (k v : String)
    (hc : ∀ p ∈ cache, ¬ p.2 = "") (hv : ¬ v = "") :
    ∀ p ∈ cacheSet cache k v, ¬ p.2 = "" := by
  intro p hp
  unfold cacheSet at hp
  by_cases h : cacheHas cache k = true
  · rw [if_pos h] at hp
    obtain ⟨q, hq, hfq⟩ := List.mem_map.mp hp
    by_cases hqk : q.1 = k
    · rw [if_pos hqk] at hfq
      rw [← hfq]
      exact hv
    · rw [if_neg hqk] at hfq
      rw [← hfq]
      exact hc q hq
  · rw [if_neg h] at hp
    rcases List.mem_append.mp hp with hp | hp
    · exact hc p hp
    · have hpv : p = (k, v) := by simpa using hp
      rw [hpv]
      exact hv

theorem fetchPhase_values_nonempty (up : Upstream) (cache : CacheT)
    (id cacheKey range : String) (calls : List UpCall)
    (hc : ∀ p ∈ cache, ¬ p.2 = "") :
    ∀ p ∈ (fetchPhase up cache id cacheKey range calls).cache, ¬ p.2 = "" := by
  intro p hp
  cases hf : up.fetchValues id range with
  | error msg =>
      rw [fetchPhase_error up cache id cacheKey range calls msg hf] at hp
      exact hc p hp
  | ok values =>
      rw [fetchPhase_ok up cache id cacheKey range calls values hf] at hp
      exact cacheSet_values_nonempty cache cacheKey _ hc (jsonStringifyRows_ne_empty _) p hp

theorem readFlow_values_nonempty (up : Upstream) (cache : CacheT) (id s : String)
    (hc : ∀ p ∈ cache, ¬ p.2 = "") :
    ∀ p ∈ (readFlow up cache id s).cache, ¬ p.2 = "" := by
  intro p hp
  cases hg : cacheGet cache (mkCacheKey id s) with
  | some r =>
      rw [readFlow_hit up cache id s r hg] at hp
      exact hc p hp
  | none =>
      by_cases hb : isNumericStr (normalizeSheet s) = true
      · cases hd : up.describe id with
        | error msg =>
            rw [readFlow_describe_error up cache id s msg hg hb hd] at hp
            exact hc p hp
        | ok titles =>
            by_cases hz : parseIntJS (normalizeSheet s) = 0
            · rw [readFlow_zero up cache id s titles hg hb hd hz] at hp
              exact hc p hp
            · cases hcase : titles[parseIntJS (normalizeSheet s) - 1]? with
              | none =>
                  rw [readFlow_notfound up cache id s titles hg hb hd hz hcase] at hp
                  exact hc p hp
              | some title =>
                  rw [readFlow_resolved up cache id s titles title hg hb hd hz hcase] at hp
                  exact fetchPhase_values_nonempty up cache id _ title _ hc p hp
      · rw [readFlow_miss_nonnumeric up cache id s hg (by simpa using hb)] at hp
        exact fetchPhase_values_nonempty up cache id _ _ _ hc p hp

theorem normalizeChar_idem (c : Char) :
    normalizeChar (normalizeChar c) = normalizeChar c := by
  unfold normalizeChar
  by_cases h : c = '+'
  · simp [h]
  · simp [h]

theorem normalizeSheet_idem (s : String) :
    normalizeSheet (normalizeSheet s) = normalizeSheet s := by
  show String.mk (List.map normalizeChar (List.map normalizeChar s.data)) =
    String.mk (List.map normalizeChar s.data)
  congr 1
  rw [List.map_map]
  exact List.map_congr_left (fun c _ => by simp [Function.comp, normalizeChar_idem])

theorem mkCacheKey_normalize (id s : String) :
    mkCacheKey id s = mkCacheKey id (normalizeSheet s) := by
  simp [mkCacheKey, normalizeSheet_idem]

theorem readFlow_normalize (up : Upstream) (cache : CacheT) (id s : String) :
    readFlow up cache id s = readFlow up cache id (normalizeSheet s) := by
  simp only [readFlow, mkCacheKey, normalizeSheet_idem]

theorem rowToObj_extra_cells (headers row : List String)
    (hnd : headers.Nodup) (hu : "undefined" ∉ headers)
    (hlen : headers.length < row.length) :
    rowToObj headers row =
      headers.zip row ++ [("undefined", List.getLastD (List.drop headers.length row) "")] := by
  have hsplit := List.take_append_drop headers.length row
  have htlen : (List.take headers.length row).length = headers.length := by
    rw [List.length_take]
    omega
  obtain ⟨e, rest, hdrop⟩ : ∃ e rest, List.drop headers.length row = e :: rest := by
    cases hd : List.drop headers.length row with
    | nil =>
        have hdl := congrArg List.length hd
        rw [List.length_drop] at hdl
        simp at hdl
        omega
    | cons a l => exact ⟨a, l, rfl⟩
  have hzip : rowToObjAux headers (List.take headers.length row) 0 [] =
      headers.zip (List.take headers.length row) :=
    rowToObj_zip headers _ (le_of_eq htlen) hnd
  have hdisj : ∀ p ∈ headers.zip row, ¬ p.1 = "undefined" := by
    rintro ⟨a, b⟩ hp hpu
    exact hu (hpu ▸ (List.of_mem_zip hp).1)
  calc rowToObj headers row
      = rowToObjAux headers
          (List.take headers.length row ++ List.drop headers.length row) 0 [] := by
        rw [hsplit]
        rfl
    _ = rowToObjAux headers (List.drop headers.length row)
          (0 + (List.take headers.length row).length)
          (rowToObjAux headers (List.take headers.length row) 0 []) :=
        rowToObjAux_append headers _ _ 0 []
    _ = rowToObjAux headers (e :: rest) headers.length (headers.zip row) := by
        rw [hdrop, hzip, zip_take_self, htlen, Nat.zero_add]
    _ = headers.zip row ++ [("undefined", List.getLastD rest e)] :=
        rowToObjAux_extras headers e rest headers.length (headers.zip row) le_rfl hdisj
    _ = headers.zip row ++
          [("undefined", List.getLastD (List.drop headers.length row) "")] := by
        rw [hdrop, List.getLastD_cons]

/-- C1 counterexample: for sub-resource "0" on an empty cache, the read flow
does issue an upstream describe call before reporting the validation error,
refuting "makes no upstream call (neither describe nor fetch) before
reporting it". -/
theorem C1_counterexample :
    (readFlow demoUpstream [] "doc" "0").response =
        Response.validationError "For this API, sheet numbers start at 1" ∧
    ¬ (readFlow demoUpstream [] "doc" "0").calls = [] ∧
    (readFlow demoUpstream [] "doc" "0").calls = [UpCall.describe "doc"] := by
  refine ⟨?_, ?_, ?_⟩ <;> decide

/-- C1 (amended): for every resource and sub-resource identifier "0", on a
cache miss the read flow first issues the describe call; if it succeeds the
flow returns the ValidationError regardless of the described contents, and
if it fails the upstream error is returned instead; in both cases the
describe call is the only upstream call, so the tabular fetch is never
invoked. -/
theorem C1_zero_ordinal (up : Upstream) (cache : CacheT) (id : String)
    (hg : cacheGet cache (mkCacheKey id "0") = none) :
    (∀ titles, up.describe id = Except.ok titles →
        (readFlow up cache id "0").response =
            Response.validationError "For this API, sheet numbers start at 1" ∧
        (readFlow up cache id "0").calls = [UpCall.describe id]) ∧
    (∀ msg, up.describe id = Except.error msg →
        (readFlow up cache id "0").response = Response.upstreamError msg ∧
        (readFlow up cache id "0").calls = [UpCall.describe id]) := by
  have hb : isNumericStr (normalizeSheet "0") = true := by decide
  have hz : parseIntJS (normalizeSheet "0") = 0 := by decide
  constructor
  · intro titles hd
    rw [readFlow_zero up cache id "0" titles hg hb hd hz]
    exact ⟨rfl, rfl⟩
  · intro msg hd
    rw [readFlow_describe_error up cache id "0" msg hg hb hd]
    exact ⟨rfl, rfl⟩

/-- Witness for C1: the amended statement applied to concrete upstreams. -/
theorem C1_zero_ordinal_witness :
    (readFlow demoUpstream [] "doc" "0").response =
        Response.validationError "For this API, sheet numbers start at 1" ∧
    (readFlow demoUpstreamDown [] "doc" "0").response =
        Response.upstreamError "The caller does not have permission" :=
  ⟨((C1_zero_ordinal demoUpstream [] "doc" rfl).1 ["Alpha", "Beta"] rfl).1,
   ((C1_zero_ordinal demoUpstreamDown [] "doc" rfl).2
      "The caller does not have permission" rfl).1⟩

/-- C2: the appendRow flow (modelled from the spec, absent from src/)
rejects a non-array payload with a validation error, no upstream call and an
unchanged cache; on upstream success it deletes exactly the read path's
cache key and returns the upstream result; on upstream failure the cache is
left unchanged. -/
theorem C2_append_invalidate (upAppend : AppendUpstream) (cache : CacheT) (id s : String) :
    (appendFlow upAppend cache id s AppendPayload.nonArray =
        ⟨AppendResponse.validationError "Request body must be an array of values",
          cache, 0⟩) ∧
    (∀ vs body, upAppend id (normalizeSheet s) vs = Except.ok body →
        appendFlow upAppend cache id s (AppendPayload.rowValues vs) =
          ⟨AppendResponse.result body, cacheDelete cache (mkCacheKey id s), 1⟩) ∧
    (∀ vs msg, upAppend id (normalizeSheet s) vs = Except.error msg →
        appendFlow upAppend cache id s (AppendPayload.rowValues vs) =
          ⟨AppendResponse.upstreamError msg, cache, 1⟩) := by
  refine ⟨rfl, ?_, ?_⟩
  · intro vs body hok
    simp only [appendFlow, hok]
  · intro vs msg herr
    simp only [appendFlow, herr]

/-- Witness for C2: the append flow on concrete upstreams. -/
theorem C2_append_invalidate_witness :
    appendFlow demoAppendOk [("doc--Sheet 1", "[]")] "doc" "Sheet+1"
        (AppendPayload.rowValues ["x"]) =
      ⟨AppendResponse.result "appended",
        cacheDelete [("doc--Sheet 1", "[]")] (mkCacheKey "doc" "Sheet+1"), 1⟩ ∧
    appendFlow demoAppendDown [] "doc" "S" (AppendPayload.rowValues ["x"]) =
      ⟨AppendResponse.upstreamError "The caller does not have permission", [], 1⟩ :=
  ⟨(C2_append_invalidate demoAppendOk [("doc--Sheet 1", "[]")] "doc" "Sheet+1").2.1
      ["x"] "appended" rfl,
   (C2_append_invalidate demoAppendDown [] "doc" "S").2.2
      ["x"] "The caller does not have permission" rfl⟩

/-- C3 counterexample: the richer variant's TTL constant is 300000 ms, which
is 5 minutes, not the claimed 7 minutes (420000 ms). -/
theorem C3_counterexample :
    cacheTTLMillis = 300000 ∧ ¬ cacheTTLMillis = 7 * 60 * 1000 := by
  constructor <;> decide

/-- C3 (amended): the TTL is a fixed per-variant constant — 5 minutes in the
richer variant and 30 seconds in the simpler one; every cache population
arms exactly one expiration timer, for the populated key with delay equal to
the fixed constant, and firing that timer deletes the key. -/
theorem C3_ttl (up : Upstream) (cache : CacheT) (id s : String) :
    cacheTTLMillis = 5 * 60 * 1000 ∧
    cacheTTLMillisSimple = 30 * 1000 ∧
    (∀ t ∈ (readFlow up cache id s).timers, t = (mkCacheKey id s, cacheTTLMillis)) ∧
    (∀ k, fireTimer (k, cacheTTLMillis) cache = cacheDelete cache k ∧
        cacheHas (fireTimer (k, cacheTTLMillis) cache) k = false) :=
  ⟨rfl, rfl, readFlow_timer_mem up cache id s,
   fun k => ⟨rfl, cacheHas_cacheDelete_self cache k⟩⟩

/-- Witness for C3: the timer armed by a concrete successful read. -/
theorem C3_ttl_witness :
    ("doc--Beta", cacheTTLMillis) = (mkCacheKey "doc" "Beta", cacheTTLMillis) :=
  (C3_ttl demoUpstream [] "doc" "Beta").2.2.1 ("doc--Beta", cacheTTLMillis) (by decide)

/-- C4: if a read returns a row response, an immediately following read of
the same resource and sub-resource returns the byte-identical serialized
body, makes zero upstream calls, and leaves the cache unchanged. -/
theorem C4_second_read_cached (up : Upstream) (cache : CacheT) (id s body : String)
    (h : (readFlow up cache id s).response = Response.rows body) :
    (readFlow up (readFlow up cache id s).cache id s).response = Response.rows body ∧
    (readFlow up (readFlow up cache id s).cache id s).calls = [] ∧
    (readFlow up (readFlow up cache id s).cache id s).cache =
      (readFlow up cache id s).cache := by
  have hc := readFlow_rows_cached up cache id s body h
  rw [readFlow_hit up ((readFlow up cache id s).cache) id s body hc]
  exact ⟨rfl, rfl, rfl⟩

/-- Witness for C4: two consecutive reads against the concrete upstream. -/
theorem C4_second_read_cached_witness :
    (readFlow demoUpstream (readFlow demoUpstream [] "doc" "Data").cache "doc" "Data").response =
        Response.rows "[\x7b\"a\":\"1\",\"b\":\"2\"\x7d,\x7b\"a\":\"3\"\x7d]" ∧
    (readFlow demoUpstream (readFlow demoUpstream [] "doc" "Data").cache "doc" "Data").calls = [] :=
  ⟨(C4_second_read_cached demoUpstream [] "doc" "Data"
      "[\x7b\"a\":\"1\",\"b\":\"2\"\x7d,\x7b\"a\":\"3\"\x7d]" (by decide)).1,
   (C4_second_read_cached demoUpstream [] "doc" "Data"
      "[\x7b\"a\":\"1\",\"b\":\"2\"\x7d,\x7b\"a\":\"3\"\x7d]" (by decide)).2.1⟩

/-- C5: the transform consumes the first raw row as headers and maps each
subsequent raw row to one row object; with distinct headers, a row no longer
than the header list is the positional zip of headers with cells, so shorter
rows lack the trailing keys; the concrete matrix of the claim transforms as
stated. -/
theorem C5_row_transform :
    (∀ (hd : List String) (rest : List (List String)),
        transformRows (hd :: rest) = List.map (rowToObj hd) rest) ∧
    (∀ (headers row : List String), row.length ≤ headers.length → headers.Nodup →
        rowToObj headers row = headers.zip row) ∧
    transformRows [["a","b"],["1","2"],["3"]] = [[("a","1"),("b","2")],[("a","3")]] :=
  ⟨fun _ _ => rfl,
   fun headers row hlen hnd => rowToObj_zip headers row hlen hnd,
   by decide⟩

/-- Witness for C5: a row shorter than the header list, via the zip form. -/
theorem C5_row_transform_witness : rowToObj ["a", "b"] ["1"] = [("a", "1")] :=
  (C5_row_transform.2.1 ["a", "b"] ["1"] (by decide) (by decide)).trans (by decide)

/-- C6: literal plus characters in the sub-resource identifier are replaced
by spaces before cache-key construction and before use as the range
selector: "Sheet+1" and "Sheet 1" give the same cache key and the whole read
flow behaves identically on them; in general the flow only ever sees the
normalized identifier. -/
theorem C6_plus_normalization (up : Upstream) (cache : CacheT) (id : String) :
    mkCacheKey id "Sheet+1" = mkCacheKey id "Sheet 1" ∧
    readFlow up cache id "Sheet+1" = readFlow up cache id "Sheet 1" ∧
    (∀ s, mkCacheKey id s = mkCacheKey id (normalizeSheet s) ∧
        readFlow up cache id s = readFlow up cache id (normalizeSheet s)) := by
  have hn : normalizeSheet "Sheet+1" = normalizeSheet "Sheet 1" := by decide
  refine ⟨?_, ?_, fun s => ⟨mkCacheKey_normalize id s, readFlow_normalize up cache id s⟩⟩
  · simp [mkCacheKey, hn]
  · simp only [readFlow, mkCacheKey, hn]

/-- C7: a purely numeric ordinal larger than the number of described sheets
yields the NotFoundError with only the describe call issued (no tabular
fetch); a valid nonzero ordinal is resolved to the 1-based sheet title,
which becomes the range of the tabular fetch. -/
theorem C7_ordinal_resolution (up : Upstream) (cache : CacheT) (id s : String)
    (titles : List String)
    (hg : cacheGet cache (mkCacheKey id s) = none)
    (hb : isNumericStr (normalizeSheet s) = true)
    (hd : up.describe id = Except.ok titles) :
    (titles.length < parseIntJS (normalizeSheet s) →
        (readFlow up cache id s).response =
            Response.notFoundError ("There is no sheet number " ++ normalizeSheet s) ∧
        (readFlow up cache id s).calls = [UpCall.describe id]) ∧
    (∀ title, titles[parseIntJS (normalizeSheet s) - 1]? = some title →
        ¬ parseIntJS (normalizeSheet s) = 0 →
        (readFlow up cache id s).calls =
          [UpCall.describe id, UpCall.fetchValues id title]) := by
  constructor
  · intro hlt
    have hz : ¬ parseIntJS (normalizeSheet s) = 0 := by omega
    have ht : titles[parseIntJS (normalizeSheet s) - 1]? = none :=
      List.getElem?_eq_none (by omega)
    rw [readFlow_notfound up cache id s titles hg hb hd hz ht]
    exact ⟨rfl, rfl⟩
  · intro title ht hz
    rw [readFlow_resolved up cache id s titles title hg hb hd hz ht]
    cases hf : up.fetchValues id title with
    | error msg => rw [fetchPhase_error up cache id _ title _ msg hf]; rfl
    | ok values => rw [fetchPhase_ok up cache id _ title _ values hf]; rfl

/-- Witness for C7: ordinal 5 of a two-sheet resource is not found; ordinal
2 resolves to the second sheet's title "Beta" as the fetch range. -/
theorem C7_ordinal_resolution_witness :
    (readFlow demoUpstream [] "doc" "5").response =
        Response.notFoundError "There is no sheet number 5" ∧
    (readFlow demoUpstream [] "doc" "2").calls =
        [UpCall.describe "doc", UpCall.fetchValues "doc" "Beta"] :=
  ⟨(((C7_ordinal_resolution demoUpstream [] "doc" "5" ["Alpha", "Beta"] rfl
        (by decide) rfl).1 (by decide)).1).trans (by decide),
   (C7_ordinal_resolution demoUpstream [] "doc" "2" ["Alpha", "Beta"] rfl
        (by decide) rfl).2 "Beta" (by decide) (by decide)⟩

/-- C8: manual eviction never errors — a missing key reports skipped and
leaves the cache unchanged; a present key with a nonempty stored value
reports ok, after which the key is gone; and the read flow only ever stores
nonempty serialized values, so every reachable cache satisfies the
nonemptiness side condition. -/
theorem C8_manual_eviction :
    (∀ (cache : CacheT) (k : String), cacheGet cache k = none →
        deleteCacheFlow cache k = (EvictStatus.skipped, cache)) ∧
    (∀ (cache : CacheT) (k v : String), cacheGet cache k = some v → ¬ v = "" →
        (deleteCacheFlow cache k).1 = EvictStatus.ok ∧
        cacheHas (deleteCacheFlow cache k).2 k = false) ∧
    (∀ (up : Upstream) (cache : CacheT) (id s : String),
        (∀ p ∈ cache, ¬ p.2 = "") →
        ∀ p ∈ (readFlow up cache id s).cache, ¬ p.2 = "") := by
  refine ⟨?_, ?_, fun up cache id s hc => readFlow_values_nonempty up cache id s hc⟩
  · intro cache k hk
    simp [deleteCacheFlow, hk]
  · intro cache k v hk hv
    simp only [deleteCacheFlow, hk, Option.getD_some]
    rw [if_neg hv]
    exact ⟨rfl, cacheHas_cacheDelete_self cache k⟩

/-- Witness for C8: eviction of a missing and of a present key. -/
theorem C8_manual_eviction_witness :
    deleteCacheFlow [] "doc--A" = (EvictStatus.skipped, []) ∧
    (deleteCacheFlow [("doc--A", "[]")] "doc--A").1 = EvictStatus.ok ∧
    cacheHas (deleteCacheFlow [("doc--A", "[]")] "doc--A").2 "doc--A" = false :=
  ⟨C8_manual_eviction.1 [] "doc--A" rfl,
   (C8_manual_eviction.2.1 [("doc--A", "[]")] "doc--A" "[]" (by decide) (by decide)).1,
   (C8_manual_eviction.2.1 [("doc--A", "[]")] "doc--A" "[]" (by decide) (by decide)).2⟩

/-- C9: an upstream fetch that succeeds with no rows at all — whether the
values field is absent or an empty matrix — makes the read flow respond with
the empty row sequence, serialized as "[]", not an error; the transform
itself sends the empty matrix to the empty sequence. -/
theorem C9_empty_matrix (up : Upstream) (cache : CacheT) (id s : String)
    (hg : cacheGet cache (mkCacheKey id s) = none)
    (hb : isNumericStr (normalizeSheet s) = false)
    (hf : up.fetchValues id (normalizeSheet s) = Except.ok none ∨
          up.fetchValues id (normalizeSheet s) = Except.ok (some [])) :
    (readFlow up cache id s).response = Response.rows "[]" ∧
    transformRows [] = [] := by
  refine ⟨?_, rfl⟩
  rw [readFlow_miss_nonnumeric up cache id s hg hb]
  rcases hf with hf | hf
  · rw [fetchPhase_ok up cache id _ _ _ none hf]
    rfl
  · rw [fetchPhase_ok up cache id _ _ _ (some []) hf]
    rfl

/-- Witness for C9: a concrete upstream returning no values field. -/
theorem C9_empty_matrix_witness :
    (readFlow demoUpstreamEmpty [] "doc" "Data").response = Response.rows "[]" :=
  (C9_empty_matrix demoUpstreamEmpty [] "doc" "Data" rfl (by decide) (Or.inl rfl)).1

/-- C10: with distinct headers not containing the string "undefined", a raw
row longer than the header row keeps its extra cells under the single
property key "undefined": the row object is the positional zip followed by
one "undefined" entry holding the last extra cell, earlier extras having
been overwritten; the concrete instance shows the overwriting. -/
theorem C10_extra_cells :
    (∀ (headers row : List String), headers.Nodup → "undefined" ∉ headers →
        headers.length < row.length →
        rowToObj headers row =
          headers.zip row ++
            [("undefined", List.getLastD (List.drop headers.length row) "")]) ∧
    rowToObj ["a"] ["1", "2", "3"] = [("a", "1"), ("undefined", "3")] :=
  ⟨fun headers row hnd hu hlen => rowToObj_extra_cells headers row hnd hu hlen,
   by decide⟩

/-- Witness for C10: two extra cells collapse to the last one. -/
theorem C10_extra_cells_witness :
    rowToObj ["a", "b"] ["1", "2", "3", "4"] =
      [("a", "1"), ("b", "2"), ("undefined", "4")] :=
  (C10_extra_cells.1 ["a", "b"] ["1", "2", "3", "4"]
      (by decide) (by decide) (by decide)).trans (by decide)
